import Mathlib

/-!
# Verification of the vsl-sdk claim authentication / identity / settlement SDK

Shallow embedding of the Rust sources of the `vsl-sdk` repository:

* `src/lib.rs`           : the `Amount` type and its hex / decimal codecs
* `src/timestamp.rs`     : the `Timestamp` type, its formatting and parsing
* `src/helpers.rs`       : the `IntoSigned` signature-checking trait
* `src/rpc_messages.rs`  : claim-id hashing and the typed claim payloads
* `src/rpc_wrapper.rs`   : the nonce-tracked account session
* `examples/faucet/faucet_verifier.rs` : the faucet verifier decision pipeline

Modelling conventions: Rust `u128` / `u64` / `u32` values are `Nat` with
explicit `< 2 ^ w` bounds where overflow matters; Rust strings are `List Char`;
fallible operations return `Option` or `Except`; external cryptography
(ECDSA recovery, Keccak-256) and the RPC / key-value-store transports are
universally quantified oracle parameters, so that every theorem holds for any
behaviour of the external world.
-/

namespace VslSdk

/-! ## Digit strings (shared by `Amount` hex codec and `Timestamp` parsing)

Rust formats unsigned integers with `{}` (decimal) and `{:#x}` (lowercase
hexadecimal, `0x`-prefixed, no leading zeros), and parses them with
`uN::from_str` / `u128::from_str_radix(s, 16)`.  We model both with a
base-parametric digit-list codec. -/

/-- Digit-to-character map of Rust decimal and lower-hex formatting:
digits 0-9 are characters 48-57, digits 10-15 are lowercase 97-102. -/
def digitChar (d : Nat) : Char :=
  if d < 10 then Char.ofNat (48 + d) else Char.ofNat (87 + d)

/-- Character-to-digit map of Rust `char::to_digit`: decimal digits,
lowercase letters, uppercase letters; `none` otherwise. -/
def charDigit (c : Char) : Option Nat :=
  if 48 ≤ c.toNat ∧ c.toNat ≤ 57 then some (c.toNat - 48)
  else if 97 ≤ c.toNat ∧ c.toNat ≤ 122 then some (c.toNat - 87)
  else if 65 ≤ c.toNat ∧ c.toNat ≤ 90 then some (c.toNat - 55)
  else none

/-- Rust `char::to_digit` with radix `b`: the digit value of `c`, provided it is below the
radix `b`. -/
def toDigit (b : Nat) (c : Char) : Option Nat :=
  match charDigit c with
  | none => none
  | some d => if d < b then some d else none

/-- Little-endian base-`b` digits of `n`, driven by explicit fuel
(`fuel ≥ n` is always enough, see `ofDigitsRev_digitsRevGo`). -/
def digitsRevGo (b : Nat) : Nat → Nat → List Nat
  | 0, _ => []
  | fuel + 1, n => if n = 0 then [] else n % b :: digitsRevGo b fuel (n / b)

/-- Little-endian base-`b` digits of `n` (`[]` for `n = 0`). -/
def digitsRev (b n : Nat) : List Nat :=
  digitsRevGo b n n

/-- Value of a little-endian digit list. -/
def ofDigitsRev (b : Nat) : List Nat → Nat
  | [] => 0
  | d :: ds => d + b * ofDigitsRev b ds

/-- The character string Rust prints for the unsigned integer `n` in base
`b`: most-significant digit first, and the single digit `0` for zero. -/
def natToChars (b n : Nat) : List Char :=
  if n = 0 then ['0'] else ((digitsRev b n).reverse).map digitChar

/-- Digit-accumulation loop of Rust `from_str_radix`. -/
def parseDigitsAcc (b acc : Nat) : List Char → Option Nat
  | [] => some acc
  | c :: cs =>
    match toDigit b c with
    | none => none
    | some d => parseDigitsAcc b (acc * b + d) cs

/-- Model of Rust `from_str_radix` for an unsigned type whose values are
`< bound` (for example `u128::from_str_radix(s, 16)` has `bound = 2 ^ 128`):
an optional leading `+`, then a non-empty run of digits of the radix.
Rust detects overflow during accumulation; since the accumulated value only
grows, that is equivalent to the final `< bound` check made here. -/
def parseUIntRadix (b bound : Nat) (cs : List Char) : Option Nat :=
  let ds := match cs with
    | [] => ([] : List Char)
    | c :: rest => if c = '+' then rest else c :: rest
  match ds with
  | [] => none
  | _ =>
    match parseDigitsAcc b 0 ds with
    | none => none
    | some v => if v < bound then some v else none

/-! ## `Amount` (`src/lib.rs`)

`pub struct Amount(u128)` is modelled as a `Nat` payload; every operation
states its `< 2 ^ 128` bounds explicitly. -/

/-- Constant `ONE_VSL_TOKEN = 1_000_000_000_000_000_000` of `src/lib.rs:38`. -/
def ONE_VSL_TOKEN : Nat := 1000000000000000000

/-- The error cases of `ParseAmountError` (`src/lib.rs:41`). -/
inductive ParseAmountError
  | NotHex
  | LeadingZeros
  | ParseInt
  | NotDecimal
  | TooManyDecimals
deriving DecidableEq, Repr

namespace Amount

/-- Models `u128::checked_add` on the `Amount` payload (`Amount::checked_add`,
`src/lib.rs:96`): `none` exactly on overflow past `2 ^ 128 - 1`. -/
def checked_add (x y : Nat) : Option Nat :=
  if x + y < 2 ^ 128 then some (x + y) else none

/-- Models `u128::checked_sub` on the `Amount` payload (`Amount::checked_sub`,
`src/lib.rs:88`): `none` exactly on underflow. -/
def checked_sub (x y : Nat) : Option Nat :=
  if y ≤ x then some (x - y) else none

/-- Models `u128::checked_mul`: `none` exactly on overflow. -/
def u128_checked_mul (x y : Nat) : Option Nat :=
  if x * y < 2 ^ 128 then some (x * y) else none

/-- Models `Amount::from_vsl_tokens` (`src/lib.rs:73`): `tokens.checked_mul(ONE_VSL_TOKEN)`
followed by `.expect(..)`; the panic on overflow is modelled as `none`. -/
def from_vsl_tokens (tokens : Nat) : Option Nat :=
  u128_checked_mul tokens ONE_VSL_TOKEN

/-- Models `Amount::from_tokens` (`src/lib.rs:80`): `10u128.checked_pow(decimals)`
then `tokens.checked_mul(one_token)`, each `.expect(..)` (panic) modelled as
`none`. -/
def from_tokens (tokens decimals : Nat) : Option Nat :=
  if 10 ^ decimals < 2 ^ 128 then u128_checked_mul tokens (10 ^ decimals) else none

/-- The `Mul for Amount` implementation (`src/lib.rs:158`): a plain `*` on
`u128`, which under Rust release-profile semantics silently wraps modulo
`2 ^ 128` on overflow (a debug build would panic instead). -/
def mul (x y : Nat) : Nat :=
  (x * y) % 2 ^ 128

/-- Models `Amount::to_hex_str` (`src/lib.rs:104`): `format!("{:#x}", self)`, a
`0x`-prefixed lowercase hex string with no leading zeros (`0x0` for zero). -/
def to_hex_str (a : Nat) : List Char :=
  '0' :: 'x' :: natToChars 16 a

/-- Models `Amount::from_hex_str` (`src/lib.rs:108`): require the `0x` prefix,
accept exactly `0x0` for zero, reject any other leading zero, and otherwise
delegate to `u128::from_str_radix(s, 16)`. -/
def from_hex_str (s : List Char) : Except ParseAmountError Nat :=
  match s with
  | c0 :: c1 :: rest =>
    if c0 = '0' ∧ c1 = 'x' then
      if rest = ['0'] then .ok 0
      else if rest.head? = some '0' then .error .LeadingZeros
      else
        match parseUIntRadix 16 (2 ^ 128) rest with
        | none => .error .ParseInt
        | some v => .ok v
    else .error .NotHex
  | _ => .error .NotHex

end Amount

/-! ## `Timestamp` (`src/timestamp.rs`) -/

/-- Structure `Timestamp { seconds: u64, nanos: u32 }` with the `u64` / `u32`
payloads as `Nat` (bounds stated at the theorems). -/
structure Timestamp where
  seconds : Nat
  nanos : Nat
deriving DecidableEq, Repr

/-- Models `str::split` with a one-character separator on a character list: the separator-free chunks, in
order, keeping empty chunks (Rust yields `[""]` on the empty string). -/
def splitOnChar (sep : Char) (cs : List Char) : List (List Char) :=
  go cs []
where
  /-- Accumulates the current chunk in reverse. -/
  go : List Char → List Char → List (List Char)
    | [], acc => [acc.reverse]
    | c :: rest, acc =>
      if c = sep then acc.reverse :: go rest [] else go rest (c :: acc)

namespace Timestamp

/-- Models `Timestamp::to_string` (`src/timestamp.rs:58`): `format!("{}.{}", seconds, nanos)`
(note: the nanos are not zero-padded). -/
def to_string (t : Timestamp) : List Char :=
  natToChars 10 t.seconds ++ '.' :: natToChars 10 t.nanos

/-- Models `FromStr for Timestamp` (`src/timestamp.rs:85`): split on `.`, require
exactly two parts, parse them with `u64::from_str` / `u32::from_str`, and
reject `nanos ≥ 1_000_000_000`.  The single-valued `ParseTimestampError` is
modelled by `none`. -/
def from_str (s : List Char) : Option Timestamp :=
  match splitOnChar '.' s with
  | [secPart, nanoPart] =>
    match parseUIntRadix 10 (2 ^ 64) secPart with
    | none => none
    | some seconds =>
      match parseUIntRadix 10 (2 ^ 32) nanoPart with
      | none => none
      | some nanos =>
        if nanos ≥ 1000000000 then none else some ⟨seconds, nanos⟩
  | _ => none

end Timestamp

/-! ## Identity and signing (`src/helpers.rs`)

`Signed<M>` carries a payload, a signature and the signed hash.  The external
cryptography — RLP encoding of the payload and ECDSA address recovery
(the alloy crate `Signature::recover_address_from_msg`) — is abstracted by oracle
parameters `encode` and `recoverFromMsg`; `Result<Address, SignatureError>`
is modelled as `Option Address` (the error payload is never inspected). -/

/-- An address identifier (20-byte account id, byte-exact equality). -/
abbrev Address : Type := Nat

/-- Structure `alloy::consensus::Signed<M>`: payload (`tx`), signature, signed hash. -/
structure Signed (M S : Type) where
  tx : M
  signature : S
  hash : Nat

/-- Models `IntoSigned::recover_address` (`src/helpers.rs:40`): encode the payload
and recover the signer address from the signature over that encoding. -/
def recover_address {M S : Type} (encode : M → List Nat)
    (recoverFromMsg : List Nat → S → Option Address) (m : M) (sig : S) :
    Option Address :=
  recoverFromMsg (encode m) sig

/-- Models `IntoSigned::check` (`src/helpers.rs:46`): recover the signer (false on
recovery failure), require a declared sender (false when `sender()` is
`None`), and compare the two addresses. -/
def check {M S : Type} (encode : M → List Nat)
    (recoverFromMsg : List Nat → S → Option Address)
    (sender : M → Option Address) (signed : Signed M S) : Bool :=
  match recover_address encode recoverFromMsg signed.tx signed.signature with
  | none => false
  | some signer =>
    match sender signed.tx with
    | none => false
    | some address => signer == address

/-- Models `IntoSigned::check_and_strip_signature` (`src/helpers.rs:58`): the bare
payload when `check` passes, otherwise `None`. -/
def check_and_strip_signature {M S : Type} (encode : M → List Nat)
    (recoverFromMsg : List Nat → S → Option Address)
    (sender : M → Option Address) (signed : Signed M S) : Option M :=
  if check encode recoverFromMsg sender signed then some signed.tx else none

/-- Structure `VerifiedClaim` (`src/rpc_messages.rs:188`); all fields are strings or
addresses, carried here only so the type is faithful. -/
structure VerifiedClaim where
  claim : List Char
  claim_id : List Char
  claim_type : List Char
  claim_owner : Address

/-- The source line `impl HasSender for VerifiedClaim` at `src/rpc_messages.rs:199` keeps
the default body of the trait, which returns `None`: a `VerifiedClaim` declares no
sender. -/
def VerifiedClaim.sender (_ : VerifiedClaim) : Option Address :=
  none

/-! ## Claim identity scheme (`src/rpc_messages.rs:474`)

The 20-byte owner address is kept as its raw bytes so that its string
rendering is explicit; the Keccak-256 compression function itself is external
(the alloy crate) and is abstracted as an oracle `H` over the accumulated
input, exactly as an incremental hasher exposes it. -/

/-- Raw bytes of a 20-byte account address. -/
abbrev AddressBytes : Type := List Nat

/-- Two lowercase hex digits of one byte (most significant first). -/
def byteHexChars (b : Nat) : List Char :=
  [digitChar (b / 16), digitChar (b % 16)]

/-- Rendering `owner.to_string().to_lowercase()` (`src/rpc_messages.rs:484`):
the alloy `Address` Display is the EIP-55 checksummed hex string, and
lowercasing it yields the plain `0x`-prefixed lowercase hex of the 20 bytes,
two digits per byte. -/
def addressLowerHex (a : AddressBytes) : List Char :=
  '0' :: 'x' :: (a.map byteHexChars).flatten

/-- State of an incremental `alloy::primitives::Keccak256` hasher: the bytes
(here ASCII characters) absorbed so far. -/
structure Keccak256 where
  acc : List Char

/-- Models `Keccak256::new`. -/
def Keccak256.new : Keccak256 :=
  ⟨[]⟩

/-- Models `Keccak256::update`: absorb further input after the current one. -/
def Keccak256.update (h : Keccak256) (s : List Char) : Keccak256 :=
  ⟨h.acc ++ s⟩

/-- Models `Keccak256::finalize` given the external Keccak-256 digest
function `H` on the absorbed input. -/
def Keccak256.finalize (H : List Char → Nat) (h : Keccak256) : Nat :=
  H h.acc

/-- Models `IdentifiableClaim::claim_id_hash` (`src/rpc_messages.rs:482`):
absorb the lowercased owner address string, the nonce string and the claim
string into one Keccak-256 hasher and finalize. -/
def claim_id_hash (H : List Char → Nat) (owner : AddressBytes)
    (nonce claim : List Char) : Nat :=
  Keccak256.finalize H
    (((Keccak256.new.update (addressLowerHex owner)).update nonce).update claim)

/-! ## Typed claim payload variants (`src/rpc_messages.rs:309`)

String-typed fields (`u128` hex amounts, `u64` decimal nonces, 256-bit hex
hashes) are `List Char`; `VslAddress` fields are the wrapped 20 address
bytes.  The canonical JSON serialization `serde_json::to_string` of the
tagged `ValidatorVerifiedClaim` union is external and abstracted as an
oracle `toJson`. -/

/-- Structure `PayMessage` (`src/rpc_messages.rs:313`). -/
structure PayMessage where
  «from» : AddressBytes
  «to» : AddressBytes
  amount : List Char
  nonce : List Char

/-- Structure `CreateAssetMessage` (`src/rpc_messages.rs:336`). -/
structure CreateAssetMessage where
  account_id : AddressBytes
  nonce : List Char
  ticker_symbol : List Char
  decimals : Nat
  total_supply : List Char

/-- Structure `TransferAssetMessage` (`src/rpc_messages.rs:372`). -/
structure TransferAssetMessage where
  «from» : AddressBytes
  nonce : List Char
  asset_id : List Char
  «to» : AddressBytes
  amount : List Char

/-- Structure `SetStateMessage` (`src/rpc_messages.rs:397`). -/
structure SetStateMessage where
  «from» : AddressBytes
  nonce : List Char
  state : List Char

/-- The closed tagged union `ValidatorVerifiedClaim` (`src/rpc_messages.rs:425`). -/
inductive ValidatorVerifiedClaim
  | Payment (m : PayMessage)
  | AssetCreation (m : CreateAssetMessage)
  | AssetTransfer (m : TransferAssetMessage)
  | SetState (m : SetStateMessage)

/-- Models `IdentifiableClaim::claim_id` of the `impl IdentifiableClaim for
PayMessage` (`src/rpc_messages.rs:536`): hash of the owner (`from`), the
nonce string, and the JSON of the `ValidatorVerifiedClaim`-wrapped payload. -/
def PayMessage.claim_id (H : List Char → Nat)
    (toJson : ValidatorVerifiedClaim → List Char) (m : PayMessage) : Nat :=
  claim_id_hash H m.«from» m.nonce (toJson (.Payment m))

/-- Models `IdentifiableClaim::claim_id` of the `impl IdentifiableClaim for
CreateAssetMessage` (`src/rpc_messages.rs:558`): owner is `account_id`. -/
def CreateAssetMessage.claim_id (H : List Char → Nat)
    (toJson : ValidatorVerifiedClaim → List Char) (m : CreateAssetMessage) : Nat :=
  claim_id_hash H m.account_id m.nonce (toJson (.AssetCreation m))

/-- Models `IdentifiableClaim::claim_id` of the `impl IdentifiableClaim for
TransferAssetMessage` (`src/rpc_messages.rs:580`): owner is `from`. -/
def TransferAssetMessage.claim_id (H : List Char → Nat)
    (toJson : ValidatorVerifiedClaim → List Char) (m : TransferAssetMessage) : Nat :=
  claim_id_hash H m.«from» m.nonce (toJson (.AssetTransfer m))

/-- The claim-id derivation the SDK provides for each variant of
`ValidatorVerifiedClaim`: `src/rpc_messages.rs` implements
`IdentifiableClaim` for `PayMessage` (line 523), `CreateAssetMessage`
(line 545) and `TransferAssetMessage` (line 567), but no `IdentifiableClaim`
implementation for `SetStateMessage` exists anywhere in the repository (its
`From<SetStateMessage> for ValidatorVerifiedClaim` conversion at line 468 is
never used), so the `SetState` variant has no claim id: `none`. -/
def claimIdOfValidatorVerifiedClaim (H : List Char → Nat)
    (toJson : ValidatorVerifiedClaim → List Char) :
    ValidatorVerifiedClaim → Option Nat
  | .Payment m => some (m.claim_id H toJson)
  | .AssetCreation m => some (m.claim_id H toJson)
  | .AssetTransfer m => some (m.claim_id H toJson)
  | .SetState _ => none

/-! ## Account session (`src/rpc_wrapper.rs:176`)

`RpcWrapper<T>` holds the signing key, the derived address and the local
nonce.  Each mutating call builds a payload from the current nonce, signs it
(`self.sign(..)?` — failure modelled by `sign = none`), performs the RPC
request (`.request(..).await?` — transport failure modelled by `rpc = none`),
then calls `self.inc_nonce()`, and finally parses the response (`?` again).
Every operation returns its result together with the updated session. -/

/-- The session state of `RpcWrapper<T>` (`src/rpc_wrapper.rs:176`); the
signing key is an opaque value of type `K`, the RPC client holds no local
state relevant here. -/
structure RpcWrapper (K : Type) where
  key : K
  address : Address
  nonce : Nat

/-- The error kinds of `RpcWrapperError` (`src/rpc_wrapper.rs:127`) relevant
to the mutating calls: signing failure, transport failure, response-parse
failure. -/
inductive RpcWrapperError
  | SignError
  | RpcError
  | ParseError
deriving DecidableEq, Repr

namespace RpcWrapper

variable {K R : Type}

/-- Models `RpcWrapper::inc_nonce` (`src/rpc_wrapper.rs:228`): `self.nonce += 1`
on a `u64`, which under Rust release-profile semantics silently wraps modulo
`2 ^ 64` at `u64::MAX` (a debug build would panic instead). -/
def inc_nonce (st : RpcWrapper K) : RpcWrapper K :=
  { st with nonce := (st.nonce + 1) % 2 ^ 64 }

/-- Models `RpcWrapper::submit_claim` (`src/rpc_wrapper.rs:255`): build the
`SubmittedClaim` from the current nonce and address, sign, send
`vsl_submitClaim`, increment the nonce, then parse the response with
`B256::from_str`. -/
def submit_claim (st : RpcWrapper K) (sign : Option Unit) (rpc : Option R)
    (parseB256 : R → Option Nat) : Except RpcWrapperError Nat × RpcWrapper K :=
  match sign with
  | none => (.error .SignError, st)
  | some _ =>
    match rpc with
    | none => (.error .RpcError, st)
    | some response =>
      let st := st.inc_nonce
      match parseB256 response with
      | none => (.error .ParseError, st)
      | some id => (.ok id, st)

/-- Models `RpcWrapper::settle_claim` (`src/rpc_wrapper.rs:292`): build the
`SettleClaimMessage`, sign, send `vsl_settleClaim`, increment the nonce; the
string response is discarded (`let _: String`), so no parse can fail. -/
def settle_claim (st : RpcWrapper K) (sign : Option Unit) (rpc : Option R) :
    Except RpcWrapperError Unit × RpcWrapper K :=
  match sign with
  | none => (.error .SignError, st)
  | some _ =>
    match rpc with
    | none => (.error .RpcError, st)
    | some _ => (.ok (), st.inc_nonce)

/-- Models `RpcWrapper::pay` (`src/rpc_wrapper.rs:326`): build the
`PayMessage`, sign, send `vsl_pay`, increment the nonce, parse the response. -/
def pay (st : RpcWrapper K) (sign : Option Unit) (rpc : Option R)
    (parseB256 : R → Option Nat) : Except RpcWrapperError Nat × RpcWrapper K :=
  match sign with
  | none => (.error .SignError, st)
  | some _ =>
    match rpc with
    | none => (.error .RpcError, st)
    | some response =>
      let st := st.inc_nonce
      match parseB256 response with
      | none => (.error .ParseError, st)
      | some id => (.ok id, st)

/-- Models `RpcWrapper::create_asset` (`src/rpc_wrapper.rs:354`): build the
`CreateAssetMessage` (`create_asset_message` never fails, `src/rpc_wrapper.rs:374`),
sign, send `vsl_createAsset`, increment the nonce, then parse both the asset
id and the claim id out of the `CreateAssetResult` response. -/
def create_asset (st : RpcWrapper K) (sign : Option Unit) (rpc : Option R)
    (parseAssetId : R → Option Nat) (parseClaimId : R → Option Nat) :
    Except RpcWrapperError (Nat × Nat) × RpcWrapper K :=
  match sign with
  | none => (.error .SignError, st)
  | some _ =>
    match rpc with
    | none => (.error .RpcError, st)
    | some response =>
      let st := st.inc_nonce
      match parseAssetId response with
      | none => (.error .ParseError, st)
      | some assetId =>
        match parseClaimId response with
        | none => (.error .ParseError, st)
        | some claimId => (.ok (assetId, claimId), st)

/-- Models `RpcWrapper::transfer_asset` (`src/rpc_wrapper.rs:406`): build the
`TransferAssetMessage` (`transfer_asset_message` never fails), sign, send
`vsl_transferAsset`, increment the nonce, parse the response. -/
def transfer_asset (st : RpcWrapper K) (sign : Option Unit) (rpc : Option R)
    (parseB256 : R → Option Nat) : Except RpcWrapperError Nat × RpcWrapper K :=
  match sign with
  | none => (.error .SignError, st)
  | some _ =>
    match rpc with
    | none => (.error .RpcError, st)
    | some response =>
      let st := st.inc_nonce
      match parseB256 response with
      | none => (.error .ParseError, st)
      | some id => (.ok id, st)

/-- Models `RpcWrapper::set_account_state` (`src/rpc_wrapper.rs:446`): build
the `SetStateMessage`, sign, send `vsl_setAccountState`, increment the nonce,
parse the response. -/
def set_account_state (st : RpcWrapper K) (sign : Option Unit) (rpc : Option R)
    (parseB256 : R → Option Nat) : Except RpcWrapperError Nat × RpcWrapper K :=
  match sign with
  | none => (.error .SignError, st)
  | some _ =>
    match rpc with
    | none => (.error .RpcError, st)
    | some response =>
      let st := st.inc_nonce
      match parseB256 response with
      | none => (.error .ParseError, st)
      | some id => (.ok id, st)

end RpcWrapper

/-! ## Faucet verifier decision pipeline (`examples/faucet/faucet_verifier.rs`)

One iteration of the subscription loop (lines 112-241) is modelled as a pure
function of the configuration and of an environment record holding the
outcome of every external or cryptographic step, in the order the code
performs them.  The function returns the decision together with the trace of
key-value-store and settlement actions it performed. -/

/-- The submitted-claim request as the faucet verifier uses it (the
faucet-era `SubmittedClaim` has string-typed fields). -/
structure FaucetReq where
  claim : List Char
  claim_type : List Char
  proof : List Char
  nonce : List Char
  «to» : List (List Char)
  quorum : Nat
  «from» : List Char
  fee : List Char

/-- The relevant faucet verifier settings (`faucet_verifier.rs:59`):
`max_amount` is already converted through `Amount::from_vsl_tokens`
(line 87). -/
structure FaucetCfg where
  verifier : Address
  master_account_address : Address
  validator_address : Address
  max_amount : Nat
  min_waiting_time : Nat

/-- Results of the external and cryptographic steps of one loop iteration,
listed in the order the code consults them. -/
structure FaucetEnv where
  /-- Did the subscription item deserialize (line 117)? -/
  deserOk : Bool
  /-- Result of `SubmittedClaim::check_and_strip_signature` (line 125). -/
  stripped : Option FaucetReq
  /-- Result of `Address::from_str` on `request.to[0]` (line 135). -/
  parseVerifier : Option Address
  /-- Result of `request.sender()` (line 144). -/
  sender : Option Address
  /-- Result of `db.get(client)` (line 156): transport error, no entry, or
  the stored bytes. -/
  dbGet : Except Unit (Option (List Nat))
  /-- Result of `bincode::decode_from_slice::<u64>` on stored bytes (line 159). -/
  decodeTs : List Nat → Option Nat
  /-- Result of `Timestamp::now().seconds()` at the rate-limit check (line 164). -/
  nowSeconds : Nat
  /-- Result of `B256::from_str(&request.proof)` (line 171). -/
  parseProofId : Option Nat
  /-- Did `account.get_settled_claim_by_id` return a claim (line 176)? -/
  getSettledOk : Bool
  /-- Result of `settled_claim.recover_address(..)` on the proof claim (line 182). -/
  recoverProofSigner : Option Address
  /-- Did `serde_json::from_str::<PayMessage>` succeed (line 192)? -/
  parsePayOk : Bool
  /-- Result of `pay_message.sender()` (line 199). -/
  paySender : Option Address
  /-- Result of `Address::from_str(&pay_message.to)` (line 209). -/
  payReceiver : Option Address
  /-- Result of `bincode::encode_to_vec(Timestamp::now().seconds())` (line 223). -/
  encodeTs : Option (List Nat)
  /-- Did `db.insert(client, ..)` succeed (line 229)? -/
  insertOk : Bool
  /-- Did `db.flush()` succeed (line 234)?  The code discards this result. -/
  flushOk : Bool
  /-- Did `account.settle_claim(..)` succeed (line 237)?  The code only logs
  a failure. -/
  settleOk : Bool

/-- The reason logged when an iteration skips its claim, one per
`eprintln! ... continue` site, in source order. -/
inductive SkipReason
  | deserError
  | signatureInvalid
  | notSingleVerifier
  | verifierAddrInvalid
  | verifierMismatch
  | clientAddrInvalid
  | amountUnparsable
  | amountTooLarge
  | tooEarly
  | proofIdInvalid
  | proofClaimNotFound
  | proofSignatureError
  | proofValidatorMismatch
  | payDecodeError
  | paySenderInvalid
  | paySenderNotMaster
  | payReceiverInvalid
  | payReceiverNotClient
  | encodeError
  | insertError
deriving DecidableEq, Repr

/-- Terminal decision of one loop iteration: skip the claim (with the logged
reason), panic on an undecodable stored timestamp (line 162), or request
settlement (carrying the result of the `settle_claim` call, which the code
only logs). -/
inductive FaucetOutcome
  | skip (r : SkipReason)
  | fatal
  | settled (ok : Bool)
deriving DecidableEq, Repr

/-- Observable store / settlement actions of one iteration. -/
inductive FaucetEvent
  | getCall
  | insertOkEv
  | insertErrEv
  | flushCall
  | settleCall
deriving DecidableEq, Repr

/-- The checks of lines 117-155, before the key-value store is consulted:
deserialization, signature check and strip, single-verifier shape, verifier
address parse and match, client sender, amount parse and bound.  On success
returns the bare request and the client address. -/
def faucetPre (cfg : FaucetCfg) (e : FaucetEnv) :
    Except SkipReason (FaucetReq × Address) :=
  if e.deserOk = false then .error .deserError
  else
    match e.stripped with
    | none => .error .signatureInvalid
    | some request =>
      if request.«to».length ≠ 1 then .error .notSingleVerifier
      else
        match e.parseVerifier with
        | none => .error .verifierAddrInvalid
        | some verifier_addr =>
          if verifier_addr ≠ cfg.verifier then .error .verifierMismatch
          else
            match e.sender with
            | none => .error .clientAddrInvalid
            | some client =>
              match Amount.from_hex_str request.claim with
              | .error _ => .error .amountUnparsable
              | .ok amount =>
                if cfg.max_amount < amount then .error .amountTooLarge
                else .ok (request, client)

/-- Decision of the `match db.get(..)` block (lines 156-219). -/
inductive RateDecision
  | proceed
  | reject (r : SkipReason)
  | fatal
deriving DecidableEq, Repr

/-- The stateful rate-limit check and, when no record is found (or the read
fails — the wildcard arm of line 169 covers both `Ok(None)` and `Err`), the
proof-of-eligibility verification (lines 156-219).  The comparison
`old_seconds + settings.min_waiting_time > Timestamp::now().seconds()` at
line 164 is a `u64` addition, which under Rust release-profile semantics
silently wraps modulo `2 ^ 64` when the stored timestamp is within
`min_waiting_time` of `u64::MAX` (a debug build would panic instead). -/
def faucetRateOrProof (cfg : FaucetCfg) (e : FaucetEnv) (client : Address) :
    RateDecision :=
  match e.dbGet with
  | .ok (some stored) =>
    match e.decodeTs stored with
    | none => .fatal
    | some old_seconds =>
      if e.nowSeconds < (old_seconds + cfg.min_waiting_time) % 2 ^ 64 then
        .reject .tooEarly
      else .proceed
  | _ =>
    match e.parseProofId with
    | none => .reject .proofIdInvalid
    | some _ =>
      if e.getSettledOk = false then .reject .proofClaimNotFound
      else
        match e.recoverProofSigner with
        | none => .reject .proofSignatureError
        | some signer =>
          if signer ≠ cfg.validator_address then .reject .proofValidatorMismatch
          else if e.parsePayOk = false then .reject .payDecodeError
          else
            match e.paySender with
            | none => .reject .paySenderInvalid
            | some payFrom =>
              if payFrom ≠ cfg.master_account_address then .reject .paySenderNotMaster
              else
                match e.payReceiver with
                | none => .reject .payReceiverInvalid
                | some receiver =>
                  if receiver ≠ client then .reject .payReceiverNotClient
                  else .proceed

/-- The commit phase (lines 222-241): encode the fresh timestamp, insert it
for the client, flush (result discarded), then request settlement (result
only logged). -/
def faucetCommit (e : FaucetEnv) : FaucetOutcome × List FaucetEvent :=
  match e.encodeTs with
  | none => (.skip .encodeError, [])
  | some _ =>
    if e.insertOk = false then (.skip .insertError, [.insertErrEv])
    else (.settled e.settleOk, [.insertOkEv, .flushCall, .settleCall])

/-- One full iteration of the faucet verifier loop (lines 112-241): the
pre-checks, then the `db.get` (the first store action), then rate limit or
proof of eligibility, then the commit phase. -/
def faucetStep (cfg : FaucetCfg) (e : FaucetEnv) :
    FaucetOutcome × List FaucetEvent :=
  match faucetPre cfg e with
  | .error r => (.skip r, [])
  | .ok (_, client) =>
    match faucetRateOrProof cfg e client with
    | .fatal => (.fatal, [.getCall])
    | .reject r => (.skip r, [.getCall])
    | .proceed =>
      let (outcome, events) := faucetCommit e
      (outcome, .getCall :: events)

/-! ## Concrete fixtures used by witnesses and counterexamples -/

/-- A well-formed faucet request: claim amount `0x1a` (26 subunits), a single
verifier, and concrete strings elsewhere. -/
def exampleRequest : FaucetReq :=
  { claim := ['0', 'x', '1', 'a']
    claim_type := ['t']
    proof := ['p']
    nonce := ['0']
    «to» := [['v']]
    quorum := 1
    «from» := ['c']
    fee := ['0', 'x', '1'] }

/-- A faucet configuration: verifier address 1, master account 2, validator 3,
maximum amount 1000 subunits, minimum waiting time 60 seconds. -/
def exampleCfg : FaucetCfg :=
  { verifier := 1
    master_account_address := 2
    validator_address := 3
    max_amount := 1000
    min_waiting_time := 60 }

/-- An environment for `exampleCfg` in which every check outside the store
succeeds (client address 7, proof claim signed by validator 3, payment from
master 2 to client 7), parameterized by the store-read result, the stored
timestamp decoder and the current time. -/
def exampleEnv (g : Except Unit (Option (List Nat)))
    (dec : List Nat → Option Nat) (now : Nat) : FaucetEnv :=
  { deserOk := true
    stripped := some exampleRequest
    parseVerifier := some 1
    sender := some 7
    dbGet := g
    decodeTs := dec
    nowSeconds := now
    parseProofId := some 11
    getSettledOk := true
    recoverProofSigner := some 3
    parsePayOk := true
    paySender := some 2
    payReceiver := some 7
    encodeTs := some [0]
    insertOk := true
    flushOk := true
    settleOk := true }

/-! # Helper lemmas

General facts about the digit codec, the splitter and the faucet pipeline,
shared by several of the claim theorems below. -/

theorem digitsRevGo_zero (b : Nat) : ∀ fuel, digitsRevGo b fuel 0 = [] := by
  intro fuel
  cases fuel <;> simp [digitsRevGo]

theorem digitsRevGo_lt (b : Nat) (hb : 0 < b) :
    ∀ fuel n d, d ∈ digitsRevGo b fuel n → d < b := by
  intro fuel
  induction fuel with
  | zero => intro n d h; simp [digitsRevGo] at h
  | succ fuel ih =>
    intro n d h
    by_cases hn : n = 0
    · simp [digitsRevGo, hn] at h
    · simp [digitsRevGo, hn] at h
      rcases h with h | h
      · exact h ▸ Nat.mod_lt _ hb
      · exact ih _ _ h

theorem ofDigitsRev_digitsRevGo (b : Nat) (hb : 2 ≤ b) :
    ∀ fuel n, n ≤ fuel → ofDigitsRev b (digitsRevGo b fuel n) = n := by
  intro fuel
  induction fuel with
  | zero => intro n hn; interval_cases n; simp [digitsRevGo, ofDigitsRev]
  | succ fuel ih =>
    intro n hn
    by_cases h0 : n = 0
    · simp [digitsRevGo, h0, ofDigitsRev]
    · have hdiv : n / b < n := Nat.div_lt_self (Nat.pos_of_ne_zero h0) hb
      have hle : n / b ≤ fuel := by omega
      simp only [digitsRevGo, h0, if_false, ofDigitsRev, ih _ hle]
      exact Nat.mod_add_div n b

theorem ofDigitsRev_digitsRev (b : Nat) (hb : 2 ≤ b) (n : Nat) :
    ofDigitsRev b (digitsRev b n) = n :=
  ofDigitsRev_digitsRevGo b hb n n (Nat.le_refl n)

theorem digitsRevGo_msd (b : Nat) (hb : 2 ≤ b) :
    ∀ fuel n, 0 < n → n ≤ fuel →
      ∃ d ds, (digitsRevGo b fuel n).reverse = d :: ds ∧ 0 < d ∧ d < b := by
  intro fuel
  induction fuel with
  | zero => intro n hn hle; omega
  | succ fuel ih =>
    intro n hn hle
    have h0 : n ≠ 0 := Nat.pos_iff_ne_zero.mp hn
    by_cases hq : n / b = 0
    · refine ⟨n % b, [], ?_, ?_, Nat.mod_lt _ (by omega)⟩
      · simp [digitsRevGo, h0, hq, digitsRevGo_zero]
      · have hnb : n < b := (Nat.div_eq_zero_iff (by omega)).mp hq
        rw [Nat.mod_eq_of_lt hnb]
        exact hn
    · have hdiv : n / b < n := Nat.div_lt_self hn hb
      obtain ⟨d, ds, hrev, hd0, hdb⟩ :=
        ih (n / b) (Nat.pos_of_ne_zero hq) (by omega)
      refine ⟨d, ds ++ [n % b], ?_, hd0, hdb⟩
      simp [digitsRevGo, h0, hrev]

theorem digitsRev_msd (b : Nat) (hb : 2 ≤ b) (n : Nat) (hn : 0 < n) :
    ∃ d ds, (digitsRev b n).reverse = d :: ds ∧ 0 < d ∧ d < b :=
  digitsRevGo_msd b hb n n hn (Nat.le_refl n)

theorem toDigit_digitChar : ∀ b, b ≤ 16 → ∀ d, d < b → toDigit b (digitChar d) = some d := by
  decide

theorem digitChar_ne_plus : ∀ d, d < 16 → digitChar d ≠ '+' := by
  decide

theorem digitChar_ne_dot : ∀ d, d < 16 → digitChar d ≠ '.' := by
  decide

theorem digitChar_ne_zero_char : ∀ d, d < 16 → 0 < d → digitChar d ≠ '0' := by
  decide

theorem parseDigitsAcc_append (b : Nat) (xs ys : List Char) :
    ∀ acc, parseDigitsAcc b acc (xs ++ ys) =
      match parseDigitsAcc b acc xs with
      | none => none
      | some v => parseDigitsAcc b v ys := by
  induction xs with
  | nil => intro acc; simp [parseDigitsAcc]
  | cons c cs ih =>
    intro acc
    simp only [List.cons_append, parseDigitsAcc]
    cases toDigit b c with
    | none => rfl
    | some d => exact ih _

theorem parseDigitsAcc_rev_map (b : Nat) (hb16 : b ≤ 16) :
    ∀ (L : List Nat), (∀ d ∈ L, d < b) →
      ∀ acc, parseDigitsAcc b acc (L.reverse.map digitChar) =
        some (acc * b ^ L.length + ofDigitsRev b L) := by
  intro L
  induction L with
  | nil => intro _ acc; simp [parseDigitsAcc, ofDigitsRev]
  | cons d L ih =>
    intro hmem acc
    have hd : d < b := hmem d (List.mem_cons_self d L)
    have hL : ∀ x ∈ L, x < b := fun x hx => hmem x (List.mem_cons_of_mem d hx)
    have hmap : ((d :: L).reverse.map digitChar) =
        (L.reverse.map digitChar) ++ [digitChar d] := by
      simp
    rw [hmap, parseDigitsAcc_append, ih hL acc]
    simp only [parseDigitsAcc, toDigit_digitChar b hb16 d hd, ofDigitsRev]
    rw [List.length_cons, pow_succ]
    ring_nf

theorem parseUIntRadix_natToChars (b bound n : Nat) (hb : 2 ≤ b) (hb16 : b ≤ 16)
    (hn : n < bound) : parseUIntRadix b bound (natToChars b n) = some n := by
  by_cases h0 : n = 0
  · subst h0
    have : natToChars b 0 = ['0'] := by simp [natToChars]
    rw [this]
    have h48 : ('0' : Char) = digitChar 0 := by decide
    simp only [parseUIntRadix]
    rw [if_neg (by decide : ¬ ('0' : Char) = '+')]
    simp only [parseDigitsAcc, h48, toDigit_digitChar b hb16 0 (by omega)]
    simp only [Nat.mul_zero, Nat.zero_mul, Nat.zero_add]
    rw [if_pos hn]
  · obtain ⟨d, ds, hrev, hd0, hdb⟩ := digitsRev_msd b hb n (Nat.pos_of_ne_zero h0)
    have hchars : natToChars b n = digitChar d :: ds.map digitChar := by
      simp [natToChars, h0, hrev]
    have hne : digitChar d ≠ '+' := digitChar_ne_plus d (by omega)
    have hparse : parseDigitsAcc b 0 ((digitsRev b n).reverse.map digitChar) = some n := by
      simp only [digitsRev]
      rw [parseDigitsAcc_rev_map b hb16 _ (fun x hx => digitsRevGo_lt b (by omega) _ _ _ hx) 0]
      rw [ofDigitsRev_digitsRevGo b hb n n (Nat.le_refl n), Nat.zero_mul, Nat.zero_add]
    have hmap : (digitsRev b n).reverse.map digitChar = digitChar d :: ds.map digitChar := by
      rw [hrev]; rfl
    rw [hchars]
    simp only [parseUIntRadix, if_neg hne]
    rw [← hmap, hparse]
    simp [hn]

theorem splitOnChar_go_no_sep (sep : Char) :
    ∀ (l acc : List Char), sep ∉ l → splitOnChar.go sep l acc = [acc.reverse ++ l] := by
  intro l
  induction l with
  | nil => intro acc _; simp [splitOnChar.go]
  | cons c cs ih =>
    intro acc h
    have hc : ¬ c = sep := fun hceq => h (hceq ▸ List.mem_cons_self c cs)
    have hcs : sep ∉ cs := fun hmem => h (List.mem_cons_of_mem c hmem)
    simp only [splitOnChar.go, if_neg hc, ih (c :: acc) hcs]
    simp

theorem splitOnChar_go_sep (sep : Char) (r : List Char) :
    ∀ (l acc : List Char), sep ∉ l →
      splitOnChar.go sep (l ++ sep :: r) acc =
        (acc.reverse ++ l) :: splitOnChar.go sep r [] := by
  intro l
  induction l with
  | nil => intro acc _; simp [splitOnChar.go]
  | cons c cs ih =>
    intro acc h
    have hc : ¬ c = sep := fun hceq => h (hceq ▸ List.mem_cons_self c cs)
    have hcs : sep ∉ cs := fun hmem => h (List.mem_cons_of_mem c hmem)
    simp only [List.cons_append, splitOnChar.go, if_neg hc, List.append_eq]
    rw [ih (c :: acc) hcs]
    simp

theorem splitOnChar_around (sep : Char) (A B : List Char)
    (hA : sep ∉ A) (hB : sep ∉ B) :
    splitOnChar sep (A ++ sep :: B) = [A, B] := by
  unfold splitOnChar
  rw [splitOnChar_go_sep sep B A [] hA, splitOnChar_go_no_sep sep B [] hB]
  simp

theorem natToChars_all_digits (b n : Nat) (hb : 0 < b) (hb16 : b ≤ 16) :
    ∀ c ∈ natToChars b n, ∃ d, d < 16 ∧ c = digitChar d := by
  intro c hc
  by_cases h0 : n = 0
  · subst h0
    simp [natToChars] at hc
    exact ⟨0, by omega, by rw [hc]; decide⟩
  · simp only [natToChars, h0, if_false, List.mem_map, List.mem_reverse] at hc
    obtain ⟨d, hd, hdc⟩ := hc
    exact ⟨d, by
      have := digitsRevGo_lt b hb n n d hd
      omega, hdc.symm⟩

theorem natToChars_no_dot (b n : Nat) (hb : 0 < b) (hb16 : b ≤ 16) :
    ('.' : Char) ∉ natToChars b n := by
  intro hmem
  obtain ⟨d, hd, hdc⟩ := natToChars_all_digits b n hb hb16 _ hmem
  exact digitChar_ne_dot d hd hdc.symm

theorem faucetStep_trace_shape (cfg : FaucetCfg) (e : FaucetEnv) :
    (faucetStep cfg e).2 = [] ∨ (faucetStep cfg e).2 = [.getCall] ∨
    (faucetStep cfg e).2 = [.getCall, .insertErrEv] ∨
    (faucetStep cfg e).2 = [.getCall, .insertOkEv, .flushCall, .settleCall] := by
  cases hpre : faucetPre cfg e with
  | error r => simp [faucetStep, hpre]
  | ok rc =>
    obtain ⟨req, client⟩ := rc
    cases hr : faucetRateOrProof cfg e client with
    | fatal => simp [faucetStep, hpre, hr]
    | reject r => simp [faucetStep, hpre, hr]
    | proceed =>
      cases he : e.encodeTs with
      | none => simp [faucetStep, faucetCommit, hpre, hr, he]
      | some bs =>
        cases hi : e.insertOk <;>
          simp [faucetStep, faucetCommit, hpre, hr, he, hi]

/-! # Claim theorems -/

/-- C1: for every payload type with an `IntoSigned`-style signature check and
any behaviour of the external encoding and ECDSA recovery, `check` succeeds
iff address recovery from the signature over the canonical encoding succeeds
and the recovered address equals the address declared by the payload type
`sender()` capability; `check_and_strip_signature` returns the bare payload
exactly when `check` is true, and `none` otherwise; and a payload whose
`sender()` is `None` — such as `VerifiedClaim` — can never pass the check. -/
theorem check_and_strip_signature_spec :
    ∀ {M S : Type} (encode : M → List Nat)
      (recoverFromMsg : List Nat → S → Option Address)
      (sender : M → Option Address) (s : Signed M S),
      (check encode recoverFromMsg sender s = true ↔
        ∃ a, recover_address encode recoverFromMsg s.tx s.signature = some a ∧
          sender s.tx = some a) ∧
      (∀ m, check_and_strip_signature encode recoverFromMsg sender s = some m ↔
        (check encode recoverFromMsg sender s = true ∧ m = s.tx)) ∧
      (check_and_strip_signature encode recoverFromMsg sender s = none ↔
        check encode recoverFromMsg sender s = false) ∧
      (∀ {S' : Type} (encode' : VerifiedClaim → List Nat)
        (recover' : List Nat → S' → Option Address) (s' : Signed VerifiedClaim S'),
        check encode' recover' VerifiedClaim.sender s' = false) := by
  intro M S encode recoverFromMsg sender s
  refine ⟨?_, ?_, ?_, ?_⟩
  · unfold check
    cases hrec : recover_address encode recoverFromMsg s.tx s.signature with
    | none => simp
    | some a =>
      cases hs : sender s.tx with
      | none => simp
      | some a' =>
        show (a == a') = true ↔ ∃ x, some a = some x ∧ some a' = some x
        simp only [beq_iff_eq, Option.some.injEq]
        constructor
        · intro h; exact ⟨a, rfl, h.symm⟩
        · rintro ⟨x, hx1, hx2⟩; rw [hx1, hx2]
  · intro m
    unfold check_and_strip_signature
    by_cases h : check encode recoverFromMsg sender s = true
    · simp [h, eq_comm]
    · simp [h]
  · unfold check_and_strip_signature
    by_cases h : check encode recoverFromMsg sender s = true
    · simp [h]
    · have hb : check encode recoverFromMsg sender s = false := by
        simpa [Bool.not_eq_true] using h
      simp [hb]
  · intro S' encode' recover' s'
    cases hrec : recover_address encode' recover' s'.tx s'.signature <;>
      simp [check, VerifiedClaim.sender, hrec]

/-- C2: `claim_id_hash` is a pure, deterministic, total function equal to the
Keccak-256 digest (oracle `H`) of the concatenation, in this fixed order, of
the lowercase `0x`-prefixed hex string of the owner address, the nonce
string, and the claim payload string; identical inputs yield the identical
id. -/
theorem claim_id_hash_spec :
    ∀ (H : List Char → Nat) (owner : AddressBytes) (nonce claim : List Char),
      claim_id_hash H owner nonce claim =
        H (addressLowerHex owner ++ (nonce ++ claim)) ∧
      ∀ owner' nonce' claim', owner = owner' → nonce = nonce' → claim = claim' →
        claim_id_hash H owner nonce claim = claim_id_hash H owner' nonce' claim' := by
  intro H owner nonce claim
  constructor
  · simp [claim_id_hash, Keccak256.new, Keccak256.update, Keccak256.finalize,
      List.append_assoc]
  · rintro o' n' c' rfl rfl rfl; rfl

/-- Witness for C2 at a concrete hash oracle, owner, nonce and claim. -/
theorem claim_id_hash_spec_witness :
    claim_id_hash List.length [1, 2] ['1'] ['c'] =
      List.length (addressLowerHex [1, 2] ++ (['1'] ++ ['c'])) ∧
    claim_id_hash List.length [1, 2] ['1'] ['c'] =
      claim_id_hash List.length [1, 2] ['1'] ['c'] :=
  ⟨(claim_id_hash_spec List.length [1, 2] ['1'] ['c']).1,
   (claim_id_hash_spec List.length [1, 2] ['1'] ['c']).2 [1, 2] ['1'] ['c'] rfl rfl rfl⟩

/-- C3 (amended): every mutating account-session operation (`submit_claim`,
`settle_claim`, `pay`, `create_asset`, `transfer_asset`,
`set_account_state`) leaves the session unchanged when the RPC transport
fails (and when signing fails, in which case no RPC call is made), and on a
successful RPC call advances the local nonce by exactly 1 modulo `2 ^ 64` —
exactly `+ 1` whenever the incremented nonce is still a `u64`, wrapping to 0
at `u64::MAX` under release semantics — modifying neither the key nor the
address. -/
theorem session_nonce_discipline :
    ∀ {K R : Type} (st : RpcWrapper K) (sign : Option Unit) (rpc : Option R)
      (p q : R → Option Nat) (r : R),
      ((RpcWrapper.submit_claim st sign (none : Option R) p).2 = st ∧
       (RpcWrapper.settle_claim st sign (none : Option R)).2 = st ∧
       (RpcWrapper.pay st sign (none : Option R) p).2 = st ∧
       (RpcWrapper.create_asset st sign (none : Option R) p q).2 = st ∧
       (RpcWrapper.transfer_asset st sign (none : Option R) p).2 = st ∧
       (RpcWrapper.set_account_state st sign (none : Option R) p).2 = st) ∧
      ((RpcWrapper.submit_claim st none rpc p).2 = st ∧
       (RpcWrapper.settle_claim st none rpc).2 = st ∧
       (RpcWrapper.pay st none rpc p).2 = st ∧
       (RpcWrapper.create_asset st none rpc p q).2 = st ∧
       (RpcWrapper.transfer_asset st none rpc p).2 = st ∧
       (RpcWrapper.set_account_state st none rpc p).2 = st) ∧
      ((RpcWrapper.submit_claim st (some ()) (some r) p).2 = st.inc_nonce ∧
       (RpcWrapper.settle_claim st (some ()) (some r)).2 = st.inc_nonce ∧
       (RpcWrapper.pay st (some ()) (some r) p).2 = st.inc_nonce ∧
       (RpcWrapper.create_asset st (some ()) (some r) p q).2 = st.inc_nonce ∧
       (RpcWrapper.transfer_asset st (some ()) (some r) p).2 = st.inc_nonce ∧
       (RpcWrapper.set_account_state st (some ()) (some r) p).2 = st.inc_nonce) ∧
      (st.inc_nonce.nonce = (st.nonce + 1) % 2 ^ 64 ∧
       st.inc_nonce.key = st.key ∧ st.inc_nonce.address = st.address) ∧
      (st.nonce + 1 < 2 ^ 64 → st.inc_nonce.nonce = st.nonce + 1) := by
  intro K R st sign rpc p q r
  refine ⟨⟨?_, ?_, ?_, ?_, ?_, ?_⟩, ⟨rfl, rfl, rfl, rfl, rfl, rfl⟩,
    ⟨?_, rfl, ?_, ?_, ?_, ?_⟩, ⟨rfl, rfl, rfl⟩,
    fun h => Nat.mod_eq_of_lt h⟩
  · cases sign <;> rfl
  · cases sign <;> rfl
  · cases sign <;> rfl
  · cases sign <;> rfl
  · cases sign <;> rfl
  · cases sign <;> rfl
  · simp only [RpcWrapper.submit_claim]
    cases p r <;> rfl
  · simp only [RpcWrapper.pay]
    cases p r <;> rfl
  · simp only [RpcWrapper.create_asset]
    cases p r with
    | none => rfl
    | some a => cases q r <;> rfl
  · simp only [RpcWrapper.transfer_asset]
    cases p r <;> rfl
  · simp only [RpcWrapper.set_account_state]
    cases p r <;> rfl

/-- C3 counterexample: at the representable session nonce `u64::MAX`
(constructible by opening the session with an explicit starting nonce), a
successful mutating call wraps the nonce to 0 instead of incrementing it by
exactly 1. -/
theorem nonce_wraps_at_max :
    (RpcWrapper.submit_claim (⟨(), 0, 2 ^ 64 - 1⟩ : RpcWrapper Unit) (some ())
        (some ()) (fun _ => some 0)).2.nonce = 0 ∧
    (2 : Nat) ^ 64 - 1 + 1 ≠ 0 := by
  constructor
  · show ((2 : Nat) ^ 64 - 1 + 1) % 2 ^ 64 = 0
    norm_num
  · norm_num

/-- Witness for C3 (amended) at a session with nonce 5. -/
theorem session_nonce_discipline_witness :
    (⟨(), 0, 5⟩ : RpcWrapper Unit).inc_nonce.nonce = 5 + 1 :=
  (session_nonce_discipline (⟨(), 0, 5⟩ : RpcWrapper Unit) (some ()) (some ())
    (fun _ => some 0) (fun _ => some 0) ()).2.2.2.2 (by norm_num)

/-- C7: the `IdentifiableClaim` implementations for the typed payloads all
apply the one scheme `claim_id_hash(owner, nonce, JSON of the
ValidatorVerifiedClaim-wrapped payload)` with the variant-appropriate owner
field, but only three of the four variants have such a derivation: the
`SetState` variant has none, because the repository contains no
`IdentifiableClaim` implementation for `SetStateMessage`. -/
theorem typed_claim_id_scheme :
    ∀ (H : List Char → Nat) (toJson : ValidatorVerifiedClaim → List Char)
      (p : PayMessage) (c : CreateAssetMessage) (t : TransferAssetMessage)
      (s : SetStateMessage),
      claimIdOfValidatorVerifiedClaim H toJson (.Payment p) =
        some (claim_id_hash H p.«from» p.nonce (toJson (.Payment p))) ∧
      claimIdOfValidatorVerifiedClaim H toJson (.AssetCreation c) =
        some (claim_id_hash H c.account_id c.nonce (toJson (.AssetCreation c))) ∧
      claimIdOfValidatorVerifiedClaim H toJson (.AssetTransfer t) =
        some (claim_id_hash H t.«from» t.nonce (toJson (.AssetTransfer t))) ∧
      claimIdOfValidatorVerifiedClaim H toJson (.SetState s) = none :=
  fun _ _ _ _ _ _ => ⟨rfl, rfl, rfl, rfl⟩

/-- C8 counterexample: the `Mul for Amount` implementation multiplies the
amounts `2 ^ 64` and `2 ^ 64` to the silently wrapped value 0 (the true
product is `2 ^ 128`), instead of failing hard. -/
theorem amount_mul_wraps :
    Amount.mul (2 ^ 64) (2 ^ 64) = 0 ∧ (2 ^ 64 : Nat) * 2 ^ 64 ≠ 0 := by
  constructor
  · show (2 ^ 64 * 2 ^ 64) % 2 ^ 128 = 0
    norm_num
  · positivity

/-- C8 (amended): `Amount` addition, subtraction and the token-count
conversions are checked — they fail (`none`, modelling `None` or the
`expect` panic) exactly on overflow and never return a wrapped value — but
the `Mul for Amount` implementation wraps modulo `2 ^ 128`. -/
theorem amount_checked_arithmetic :
    ∀ x y d : Nat,
      (Amount.checked_add x y = none ↔ 2 ^ 128 ≤ x + y) ∧
      (x + y < 2 ^ 128 → Amount.checked_add x y = some (x + y)) ∧
      (Amount.checked_sub x y = none ↔ x < y) ∧
      (y ≤ x → Amount.checked_sub x y = some (x - y)) ∧
      (Amount.from_vsl_tokens x = none ↔ 2 ^ 128 ≤ x * ONE_VSL_TOKEN) ∧
      (Amount.from_tokens x d = none ↔
        (2 ^ 128 ≤ 10 ^ d ∨ 2 ^ 128 ≤ x * 10 ^ d)) ∧
      Amount.mul x y = (x * y) % 2 ^ 128 := by
  intro x y d
  refine ⟨?_, ?_, ?_, ?_, ?_, ?_, rfl⟩
  · simp only [Amount.checked_add]
    split <;> simp <;> omega
  · intro h
    unfold Amount.checked_add
    rw [if_pos h]
  · simp only [Amount.checked_sub]
    split <;> simp <;> omega
  · intro h
    unfold Amount.checked_sub
    rw [if_pos h]
  · simp only [Amount.from_vsl_tokens, Amount.u128_checked_mul]
    split <;> simp <;> omega
  · by_cases h1 : 10 ^ d < 2 ^ 128
    · by_cases h2 : x * 10 ^ d < 2 ^ 128
      · simp [Amount.from_tokens, Amount.u128_checked_mul, h1, h2]
        omega
      · simp [Amount.from_tokens, Amount.u128_checked_mul, h1, h2]
        omega
    · simp [Amount.from_tokens, h1]
      omega

/-- Witness for C8 (amended) at `x = 5`, `y = 3`, `d = 2`. -/
theorem amount_checked_arithmetic_witness :
    Amount.checked_add 5 3 = some (5 + 3) ∧
    Amount.checked_sub 5 3 = some (5 - 3) :=
  ⟨(amount_checked_arithmetic 5 3 2).2.1 (by norm_num),
   (amount_checked_arithmetic 5 3 2).2.2.2.1 (by norm_num)⟩

/-- C4: whenever the faucet verifier pipeline issues a settlement call, the
store/settlement trace of that iteration is exactly a store read, a
successful insert of the new last-accepted timestamp, a flush, and only then
the settlement request — settlement is never requested for a claim whose
timestamp record was not first written. -/
theorem settle_only_after_persist :
    ∀ (cfg : FaucetCfg) (e : FaucetEnv),
      FaucetEvent.settleCall ∈ (faucetStep cfg e).2 →
      (faucetStep cfg e).2 =
        [.getCall, .insertOkEv, .flushCall, .settleCall] := by
  intro cfg e hmem
  rcases faucetStep_trace_shape cfg e with h | h | h | h
  · rw [h] at hmem; simp at hmem
  · rw [h] at hmem; simp at hmem
  · rw [h] at hmem; simp at hmem
  · exact h

/-- Witness for C4 at a concrete configuration and environment in which
settlement is reached. -/
theorem settle_only_after_persist_witness :
    (faucetStep exampleCfg (exampleEnv (.ok none) (fun _ => none) 100)).2 =
      [.getCall, .insertOkEv, .flushCall, .settleCall] :=
  settle_only_after_persist exampleCfg (exampleEnv (.ok none) (fun _ => none) 100)
    (by decide)

/-- C5 (amended): with `min_waiting_time = 60` and a persisted last-accepted
timestamp `t` whose `u64` sum `t + 60` does not overflow, in an iteration
whose pre-checks pass, a second request arriving at `t + 59` seconds is
rejected as too early, one arriving at `t + 61` seconds is accepted
(settlement requested, given the commit steps succeed), and when no prior
record exists the pipeline falls through to proof-of-eligibility
verification instead of assuming eligibility (here: it rejects on an
unparsable proof id).  The overflow proviso is forced by the release-mode
wrap of the comparison at line 164, see `rate_limit_wrap_not_rejected`. -/
theorem rate_limit_window :
    ∀ (cfg : FaucetCfg) (e : FaucetEnv) (rc : FaucetReq × Address)
      (bs : List Nat) (t : Nat),
      faucetPre cfg e = .ok rc →
      cfg.min_waiting_time = 60 →
      ((e.dbGet = .ok (some bs) → e.decodeTs bs = some t → t + 60 < 2 ^ 64 →
          e.nowSeconds = t + 59 → (faucetStep cfg e).1 = .skip .tooEarly) ∧
       (e.dbGet = .ok (some bs) → e.decodeTs bs = some t →
          e.nowSeconds = t + 61 → e.encodeTs ≠ none → e.insertOk = true →
          (faucetStep cfg e).1 = .settled e.settleOk) ∧
       (e.dbGet = .ok none → e.parseProofId = none →
          (faucetStep cfg e).1 = .skip .proofIdInvalid)) := by
  intro cfg e rc bs t hpre hmin
  obtain ⟨req, client⟩ := rc
  refine ⟨?_, ?_, ?_⟩
  · intro hg hd hb hn
    have hr : faucetRateOrProof cfg e client = .reject .tooEarly := by
      simp only [faucetRateOrProof, hg, hd, hmin, hn, Nat.mod_eq_of_lt hb]
      rw [if_pos (by omega)]
    simp [faucetStep, hpre, hr]
  · intro hg hd hn henc hins
    have hr : faucetRateOrProof cfg e client = .proceed := by
      simp only [faucetRateOrProof, hg, hd, hmin, hn]
      have hle : (t + 60) % 2 ^ 64 ≤ t + 60 := Nat.mod_le _ _
      rw [if_neg (by omega)]
    cases he : e.encodeTs with
    | none => exact absurd he henc
    | some bs2 => simp [faucetStep, hpre, hr, faucetCommit, he, hins]
  · intro hg hp
    have hr : faucetRateOrProof cfg e client = .reject .proofIdInvalid := by
      simp only [faucetRateOrProof, hg, hp]
    simp [faucetStep, hpre, hr]

/-- Witness for C5: stored timestamp 40, requests at 99 and 101 seconds, and
a no-record iteration with an unparsable proof id. -/
theorem rate_limit_window_witness :
    (faucetStep exampleCfg (exampleEnv (.ok (some [9])) (fun _ => some 40) 99)).1 =
      .skip .tooEarly ∧
    (faucetStep exampleCfg (exampleEnv (.ok (some [9])) (fun _ => some 40) 101)).1 =
      .settled true ∧
    (faucetStep exampleCfg
      { exampleEnv (.ok none) (fun _ => none) 100 with parseProofId := none }).1 =
      .skip .proofIdInvalid :=
  ⟨(rate_limit_window exampleCfg (exampleEnv (.ok (some [9])) (fun _ => some 40) 99)
      (exampleRequest, 7) [9] 40 rfl rfl).1 rfl rfl (by norm_num) rfl,
   (rate_limit_window exampleCfg (exampleEnv (.ok (some [9])) (fun _ => some 40) 101)
      (exampleRequest, 7) [9] 40 rfl rfl).2.1 rfl rfl rfl (by decide) rfl,
   (rate_limit_window exampleCfg
      { exampleEnv (.ok none) (fun _ => none) 100 with parseProofId := none }
      (exampleRequest, 7) [9] 40 rfl rfl).2.2 rfl rfl⟩

/-- C5 counterexample: with `min_waiting_time = 60`, a stored timestamp
`t = 2 ^ 64 - 60` and the representable current time
`now = 2 ^ 64 - 1 = t + 59`, the release-mode `u64` sum `t + 60` wraps to 0,
the comparison `0 > now` is false, and the request is accepted (settled)
instead of being rejected as the claim states for every `t`. -/
theorem rate_limit_wrap_not_rejected :
    (2 : Nat) ^ 64 - 1 = (2 ^ 64 - 60) + 59 ∧
    (faucetStep exampleCfg
      (exampleEnv (.ok (some [9])) (fun _ => some (2 ^ 64 - 60)) (2 ^ 64 - 1))).1 =
      .settled true := by
  exact ⟨by norm_num, by decide⟩

/-- C6 counterexample: a concrete iteration whose key-value-store read fails
(`dbGet` is an error) is not rejected — the proof-of-eligibility branch runs
and the claim is settled; likewise a concrete iteration whose flush fails
still proceeds to settlement. -/
theorem kv_failure_not_skipped :
    (exampleEnv (.error ()) (fun _ => none) 100).dbGet = .error () ∧
    (faucetStep exampleCfg (exampleEnv (.error ()) (fun _ => none) 100)).1 =
      .settled true ∧
    ({ exampleEnv (.ok none) (fun _ => none) 100 with flushOk := false }).flushOk
      = false ∧
    (faucetStep exampleCfg
      { exampleEnv (.ok none) (fun _ => none) 100 with flushOk := false }).1 =
      .settled true := by
  refine ⟨rfl, by decide, rfl, by decide⟩

/-- C6 (amended): in the faucet verifier, a timestamp-encode failure or a
store insert (write) failure skips the current claim — settlement is only
reached with a successful encode and insert; a store read failure is not a
rejection: it is treated exactly like an absent record, falling through to
proof-of-eligibility; a flush failure is ignored entirely; and a stored
timestamp that cannot be decoded is fatal. -/
theorem kv_error_handling :
    ∀ (cfg : FaucetCfg) (e : FaucetEnv) (rc : FaucetReq × Address)
      (bs : List Nat) (b : Bool),
      ((faucetStep cfg e).1 = .settled b →
        e.insertOk = true ∧ e.encodeTs ≠ none) ∧
      faucetStep cfg { e with dbGet := .error () } =
        faucetStep cfg { e with dbGet := .ok none } ∧
      faucetStep cfg { e with flushOk := true } =
        faucetStep cfg { e with flushOk := false } ∧
      (faucetPre cfg e = .ok rc → e.dbGet = .ok (some bs) →
        e.decodeTs bs = none → (faucetStep cfg e).1 = .fatal) := by
  intro cfg e rc bs b
  refine ⟨?_, rfl, rfl, ?_⟩
  · intro h
    cases hpre : faucetPre cfg e with
    | error r => simp [faucetStep, hpre] at h
    | ok rc2 =>
      obtain ⟨req, client⟩ := rc2
      cases hr : faucetRateOrProof cfg e client with
      | fatal => simp [faucetStep, hpre, hr] at h
      | reject r => simp [faucetStep, hpre, hr] at h
      | proceed =>
        cases henc : e.encodeTs with
        | none => simp [faucetStep, faucetCommit, hpre, hr, henc] at h
        | some bs2 =>
          cases hins : e.insertOk with
          | false => simp [faucetStep, faucetCommit, hpre, hr, henc, hins] at h
          | true => exact ⟨rfl, by simp [henc]⟩
  · intro hpre hg hd
    obtain ⟨req, client⟩ := rc
    have hr : faucetRateOrProof cfg e client = .fatal := by
      simp only [faucetRateOrProof, hg, hd]
    simp [faucetStep, hpre, hr]

/-- Witness for C6 (amended): a settled iteration indeed has a successful
insert and encode, and an undecodable stored timestamp is fatal. -/
theorem kv_error_handling_witness :
    ((exampleEnv (.ok none) (fun _ => none) 100).insertOk = true ∧
      (exampleEnv (.ok none) (fun _ => none) 100).encodeTs ≠ none) ∧
    (faucetStep exampleCfg (exampleEnv (.ok (some [9])) (fun _ => none) 100)).1 =
      .fatal :=
  ⟨(kv_error_handling exampleCfg (exampleEnv (.ok none) (fun _ => none) 100)
      (exampleRequest, 7) [9] true).1 (by decide),
   (kv_error_handling exampleCfg (exampleEnv (.ok (some [9])) (fun _ => none) 100)
      (exampleRequest, 7) [9] true).2.2.2 rfl rfl rfl⟩

/-- C9: formatting any representable amount as hex and parsing it back yields
exactly that amount; hex parsing rejects `0x01` (leading zero) and `1`
(missing prefix), and accepts `0x0` (as zero) and `0x1a` (as 26). -/
theorem amount_hex_roundtrip :
    (∀ a : Nat, a < 2 ^ 128 →
      Amount.from_hex_str (Amount.to_hex_str a) = .ok a) ∧
    Amount.from_hex_str ['0', 'x', '0', '1'] = .error .LeadingZeros ∧
    Amount.from_hex_str ['1'] = .error .NotHex ∧
    Amount.from_hex_str ['0', 'x', '0'] = .ok 0 ∧
    Amount.from_hex_str ['0', 'x', '1', 'a'] = .ok 26 := by
  refine ⟨?_, rfl, rfl, rfl, rfl⟩
  intro a ha
  by_cases h0 : a = 0
  · subst h0; rfl
  · obtain ⟨d, ds, hrev, hd0, hdb⟩ :=
      digitsRev_msd 16 (by omega) a (Nat.pos_of_ne_zero h0)
    have hchars : natToChars 16 a = digitChar d :: ds.map digitChar := by
      simp [natToChars, h0, hrev]
    have step : Amount.from_hex_str (Amount.to_hex_str a) =
        (if natToChars 16 a = ['0'] then Except.ok 0
         else if (natToChars 16 a).head? = some '0' then
           Except.error ParseAmountError.LeadingZeros
         else
           match parseUIntRadix 16 (2 ^ 128) (natToChars 16 a) with
           | none => Except.error ParseAmountError.ParseInt
           | some v => Except.ok v) := rfl
    have h1 : ¬ (natToChars 16 a = ['0']) := by
      rw [hchars]
      intro hx
      simp only [List.cons.injEq] at hx
      exact digitChar_ne_zero_char d (by omega) hd0 hx.1
    have h2 : ¬ ((natToChars 16 a).head? = some '0') := by
      rw [hchars]
      simp only [List.head?_cons, Option.some.injEq]
      exact digitChar_ne_zero_char d (by omega) hd0
    rw [step, if_neg h1, if_neg h2,
      parseUIntRadix_natToChars 16 (2 ^ 128) a (by omega) (by omega) ha]

/-- Witness for C9 at the amount 26. -/
theorem amount_hex_roundtrip_witness :
    Amount.from_hex_str (Amount.to_hex_str 26) = .ok 26 :=
  amount_hex_roundtrip.1 26 (by norm_num)

/-- C10: for every timestamp whose nanos field is below 1,000,000,000 (its
seconds being a `u64` value), parsing the string produced by its own
formatting round-trips exactly, and the parsed result satisfies the nanos
bound again. -/
theorem timestamp_roundtrip :
    ∀ t : Timestamp, t.seconds < 2 ^ 64 → t.nanos < 1000000000 →
      Timestamp.from_str (Timestamp.to_string t) = some t ∧
      t.nanos < 1000000000 := by
  intro t hs hn
  refine ⟨?_, hn⟩
  obtain ⟨s, n⟩ := t
  dsimp only at hs hn
  have hsplit : splitOnChar '.' (Timestamp.to_string ⟨s, n⟩) =
      [natToChars 10 s, natToChars 10 n] := by
    unfold Timestamp.to_string
    exact splitOnChar_around '.' _ _
      (natToChars_no_dot 10 s (by omega) (by omega))
      (natToChars_no_dot 10 n (by omega) (by omega))
  have hp1 := parseUIntRadix_natToChars 10 (2 ^ 64) s (by omega) (by omega) hs
  have hp2 := parseUIntRadix_natToChars 10 (2 ^ 32) n (by omega) (by omega) (by omega)
  simp only [Timestamp.from_str, hsplit, hp1, hp2]
  rw [if_neg (by omega)]

/-- Witness for C10 at the timestamp 12345.6789. -/
theorem timestamp_roundtrip_witness :
    Timestamp.from_str (Timestamp.to_string ⟨12345, 6789⟩) = some ⟨12345, 6789⟩ ∧
    (12345 : Nat) < 2 ^ 64 ∧ (6789 : Nat) < 1000000000 :=
  ⟨(timestamp_roundtrip ⟨12345, 6789⟩ (by norm_num) (by norm_num)).1,
   by norm_num, by norm_num⟩

end VslSdk
